import Mathlib

/-!
Verification of the Obzor weather-trend analysis service.

The development shallowly embeds the decision-bearing code of the repository:

* `analyze_weather_trend` (src/app.py): the LLM-response parsing and
  fallback-composition core, including the missing-API-key short circuit,
  the non-200 branch, the empty-content branch and the outer error boundary.
* `get_historical_weather`, `get_forecast_weather` (src/weather_data.py):
  the weather fetchers' error mapping (the network round trip itself is
  abstracted as a `FetchOutcome` value).
* `weather_trend` (src/backup_app.py): the endpoint that validates the
  `days` query parameter before fetching.

Python string operations used by the code (`str.lower`, `str.strip`,
`str.split`, `str.replace`, `in`) are modelled on `List Char` with the
semantics Python gives them on the character ranges this code base uses
(ASCII plus the basic Cyrillic block).
-/

namespace Obzor

/-- Python `str.lower` restricted to the character ranges relevant to this
code base: ASCII letters A–Z and the basic Cyrillic capitals А–Я (U+0410 to
U+042F) are mapped to their lowercase forms; every other character is
returned unchanged.  All keyword matching in `app.py` is over lowercase
Bulgarian keywords from the basic Cyrillic block, so this restriction agrees
with Python on the membership tests the code performs. -/
def pyLowerChar (c : Char) : Char :=
  if 0x41 ≤ c.toNat ∧ c.toNat ≤ 0x5A then Char.ofNat (c.toNat + 0x20)
  else if 0x410 ≤ c.toNat ∧ c.toNat ≤ 0x42F then Char.ofNat (c.toNat + 0x20)
  else c

/-- ASCII whitespace, as stripped by Python `str.strip()` (the code's texts
contain no non-ASCII whitespace). -/
def isPySpace (c : Char) : Bool :=
  c == ' ' || c == '\t' || c == '\n' || c == '\r' || c == '\x0b' || c == '\x0c'

/-- Python `str.strip()`: remove whitespace from both ends. -/
def pyStrip (l : List Char) : List Char :=
  ((l.dropWhile isPySpace).reverse.dropWhile isPySpace).reverse

/-- Python `s.replace(ab, "")` for a two-character pattern `ab`: remove every
non-overlapping occurrence, scanning left to right. -/
def removePat2 (a b : Char) : List Char → List Char
  | [] => []
  | [c] => [c]
  | c :: d :: cs =>
    if c = a ∧ d = b then removePat2 a b cs
    else c :: removePat2 a b (d :: cs)

/-- Python `s.split("\n\n")`: split on every non-overlapping occurrence of
the two-newline separator, scanning left to right. -/
def splitNN : List Char → List (List Char)
  | [] => [[]]
  | '\n' :: '\n' :: cs => [] :: splitNN cs
  | c :: cs =>
    match splitNN cs with
    | [] => [[c]]
    | h :: t => (c :: h) :: t

/-- Whether `pre` is a prefix of `l` (helper for substring containment). -/
def isPrefixL : List Char → List Char → Bool
  | [], _ => true
  | _ :: _, [] => false
  | a :: as, b :: bs => a == b && isPrefixL as bs

/-- Python `needle in hay` substring containment. -/
def containsSub (needle : List Char) : List Char → Bool
  | [] => isPrefixL needle []
  | c :: cs => isPrefixL needle (c :: cs) || containsSub needle cs

/-- The enumeration-marker removal performed on each paragraph in
`analyze_weather_trend` (src/app.py lines 174–175):
`p.replace("1.","").replace("2.","").replace("3.","").strip()` followed by
`p.replace("1)","").replace("2)","").replace("3)","").strip()`.
Note that Python `str.replace` removes every occurrence, anywhere in the
string. -/
def stripMarkers (p : List Char) : List Char :=
  let q := pyStrip (removePat2 '3' '.' (removePat2 '2' '.' (removePat2 '1' '.' p)))
  pyStrip (removePat2 '3' ')' (removePat2 '2' ')' (removePat2 '1' ')' q)))

/-- The paragraph lowered as the code lowers it (`p_lower = p.lower()`,
computed from the original paragraph before marker removal). -/
def lowered (p : List Char) : List Char := p.map pyLowerChar

/-- Keyword test for the analysis bucket (src/app.py line 177):
`"време" in p_lower or "небе" in p_lower or "температура" in p_lower`. -/
def matchAnalysis (p : List Char) : Bool :=
  containsSub "време".data (lowered p) || containsSub "небе".data (lowered p) ||
    containsSub "температура".data (lowered p)

/-- Keyword test for the influence bucket (src/app.py line 179):
`"влияние" in p_lower or "усещане" in p_lower or "настроение" in p_lower`. -/
def matchInfluence (p : List Char) : Bool :=
  containsSub "влияние".data (lowered p) || containsSub "усещане".data (lowered p) ||
    containsSub "настроение".data (lowered p)

/-- Keyword test for the sunny-day bucket (src/app.py line 181):
`"слънчев" in p_lower or "хелиополис" in p_lower`. -/
def matchSunny (p : List Char) : Bool :=
  containsSub "слънчев".data (lowered p) || containsSub "хелиополис".data (lowered p)

/-- The three accumulator variables `analysis`, `influence`, `sunny_day` of
the paragraph loop in `analyze_weather_trend`. -/
structure ScanState where
  a : List Char
  i : List Char
  s : List Char
  deriving DecidableEq, Repr

/-- One iteration of the paragraph loop (src/app.py lines 171–182): the
`if not analysis and (...) / elif not influence and (...) / elif not
sunny_day and (...)` chain.  The keyword tests run on the lowercase of the
original paragraph, the stored value is the marker-stripped paragraph. -/
def scanStep (st : ScanState) (p : List Char) : ScanState :=
  if st.a.isEmpty && matchAnalysis p then { st with a := stripMarkers p }
  else if st.i.isEmpty && matchInfluence p then { st with i := stripMarkers p }
  else if st.s.isEmpty && matchSunny p then { st with s := stripMarkers p }
  else st

/-- The whole paragraph loop, starting from three empty strings. -/
def runScan (ps : List (List Char)) : ScanState :=
  ps.foldl scanStep ⟨[], [], []⟩

/-- The positional fallback (src/app.py lines 185–190): any still-empty
bucket is filled by index 0/1/2 into the original paragraph list, when that
index exists. -/
def positionalFill (ps : List (List Char)) (st : ScanState) : ScanState :=
  { a := if st.a.isEmpty && !ps.isEmpty then ps.getD 0 [] else st.a
    i := if st.i.isEmpty && decide (1 < ps.length) then ps.getD 1 [] else st.i
    s := if st.s.isEmpty && decide (2 < ps.length) then ps.getD 2 [] else st.s }

/-- Fixed textual default for the analysis bucket (src/app.py line 194). -/
def defaultAnalysis : String :=
  "Времето в момента е приятно за разходка из древния Град на Слънцето."

/-- Fixed textual default for the influence bucket (src/app.py line 196). -/
def defaultInfluence : String :=
  "Условията предразполагат към приятни разходки и активности на открито."

/-- Fixed textual default for the sunny-day bucket (src/app.py line 198). -/
def defaultSunny : String :=
  "Денят носи типичното за Хелиополис слънчево настроение."

/-- The textual fallback (src/app.py lines 193–198): any still-empty bucket
receives its fixed default sentence. -/
def withDefaults (st : ScanState) : ScanState :=
  { a := if st.a.isEmpty then defaultAnalysis.data else st.a
    i := if st.i.isEmpty then defaultInfluence.data else st.i
    s := if st.s.isEmpty then defaultSunny.data else st.s }

/-- Paragraph extraction (src/app.py line 163):
`[p.strip() for p in generated_text.split('\n\n') if p.strip()]`. -/
def paragraphs (text : String) : List (List Char) :=
  ((splitNN text.data).map pyStrip).filter (fun l => !l.isEmpty)

/-- The whole Parse step of `analyze_weather_trend` on the generated text
(src/app.py lines 163–198): paragraph split, keyword scan, positional
fallback, textual defaults. -/
def parseGenerated (text : String) : ScanState :=
  withDefaults (positionalFill (paragraphs text) (runScan (paragraphs text)))

/-- One content block of the Anthropic response; `text` is `none` when the
block carries no "text" key (the code reads it as `content[0].get("text", "")`). -/
structure ContentBlock where
  text : Option String
  deriving DecidableEq, Repr

/-- The parsed JSON body of a 200 response; `content` is the list the code
reads as `result.get("content", [])` (empty when the key is missing). -/
structure AnthropicBody where
  content : List ContentBlock
  deriving DecidableEq, Repr

/-- Outcome of the LLM dispatch, as observed by `analyze_weather_trend`:
either some exception escaped `httpx.AsyncClient.post` / `response.json()`
(with `str(e)` equal to `msg`), or a response with a status code and a
parsed body was obtained. -/
inductive LLMOutcome where
  | raised (msg : String)
  | response (status : Nat) (body : AnthropicBody)
  deriving DecidableEq, Repr

/-- The `current` section of the forecast payload, as far as the analyzer
reads it; `temp_c` holds the rendered value of the "temp_c" key, `none` when
the key is missing. -/
structure CurrentWeather where
  temp_c : Option String
  deriving DecidableEq, Repr

/-- The forecast payload, as far as the analyzer reads it; `current` is
`none` when the payload has no "current" key. -/
structure ForecastData where
  current : Option CurrentWeather
  deriving DecidableEq, Repr

/-- `forecast_data.get("current", {}).get("temp_c", "N/A")` (src/app.py
line 54). -/
def currentTempStr (fd : ForecastData) : String :=
  match fd.current with
  | none => "N/A"
  | some c => c.temp_c.getD "N/A"

/-- The result record of `analyze_weather_trend`.  The `status` and
`error_details` fields model the optional "статус" and "error_details" keys;
they are `none` exactly when the code's returned dict omits them. -/
structure TrendResult where
  analiz : String
  vliyanie : String
  slanchev_den : String
  status : Option String
  error_details : Option String
  deriving DecidableEq, Repr

/-- The degraded result returned when `ANTHROPIC_API_KEY` is absent
(src/app.py lines 51–61). -/
def missingKeyResult (fd : ForecastData) : TrendResult :=
  { analiz := "[!] AI анализът временно недостъпен (липсва API ключ). Базовите данни показват температура от " ++ currentTempStr fd ++ "°C в Обзор."
    vliyanie := "[!] Поради липса на AI анализ, препоръчваме да следите метеорологичните условия от стандартната прогноза."
    slanchev_den := "[!] AI оценката за \x27слънчев ден\x27 не е налична поради липсващ API ключ."
    status := some "error"
    error_details := some "Липсва ANTHROPIC_API_KEY" }

/-- The error message template of the non-200 branch (src/app.py line 139). -/
def httpErrorMsg (status : Nat) : String :=
  "Технически проблем с AI анализа (код: " ++ toString status ++ ")"

/-- The degraded result returned on a non-200 response from the LLM API
(src/app.py lines 137–146). -/
def httpErrorResult (status : Nat) : TrendResult :=
  { analiz := "[!] " ++ httpErrorMsg status ++ ". В момента в древния Град на Слънцето времето е приятно за разходки, но нашите системи временно не могат да предоставят детайлен анализ."
    vliyanie := "[!] Поради техническа поддръжка на AI системите, моля проверете прогнозата от други източници. Междувременно можете да се насладите на морския бриз."
    slanchev_den := "[!] Временно недостъпна информация поради технически проблем с AI анализа."
    status := some "error"
    error_details := some (httpErrorMsg status) }

/-- The degraded result built by the outer `except` boundary (src/app.py
lines 213–222), where `emsg` is `str(e)` of the escaped exception. -/
def sysErrorResult (emsg : String) : TrendResult :=
  { analiz := "[!] Системна грешка: " ++ emsg ++ ". Базовите ни системи показват типично крайморско време в Хелиополис."
    vliyanie := "[!] Поради технически проблем не можем да предоставим детайлен анализ. Моля, проверете други източници."
    slanchev_den := "[!] Временно недостъпна информация поради системна грешка."
    status := some "error"
    error_details := some ("Системна грешка: " ++ emsg) }

/-- `analyze_weather_trend` (src/app.py lines 48–222), as a function of the
key availability, the forecast payload (used only by the preflight branch)
and the observed LLM outcome.  The prompt composition and the two formatting
calls cannot raise and do not influence the returned record, so they do not
appear.  An empty `content` list raises `Exception("Празен отговор от AI
модела")`, which the outer boundary converts to a degraded result; exhausting
every other raise site is what the `LLMOutcome.raised` constructor models. -/
def analyze_weather_trend (hasKey : Bool) (fd : ForecastData) (out : LLMOutcome) : TrendResult :=
  if !hasKey then missingKeyResult fd
  else
    match out with
    | .raised emsg => sysErrorResult emsg
    | .response status body =>
      if status ≠ 200 then httpErrorResult status
      else
        match body.content with
        | [] => sysErrorResult "Празен отговор от AI модела"
        | blk :: _ =>
          let st := parseGenerated (blk.text.getD "")
          { analiz := ⟨st.a⟩, vliyanie := ⟨st.i⟩, slanchev_den := ⟨st.s⟩
            status := none, error_details := none }

/-- A FastAPI `HTTPException` as raised by the fetchers: status code and
detail string. -/
structure HTTPExc where
  status_code : Nat
  detail : String
  deriving DecidableEq, Repr

/-- Python `str(e)` for a starlette `HTTPException`:
`f"{self.status_code}: {self.detail}"`. -/
def httpExcStr (e : HTTPExc) : String :=
  toString e.status_code ++ ": " ++ e.detail

/-- Outcome of an outbound weather/HF request: a response with status code
and parsed body, or some exception with `str(e) = msg`. -/
inductive FetchOutcome (α : Type) where
  | response (status : Nat) (body : α)
  | raised (msg : String)

/-- `get_historical_weather` (src/weather_data.py lines 10–32).  The inner
`raise HTTPException(status_code=response.status_code, ...)` on a non-200
vendor response is caught by the function's own `except Exception` clause,
which re-raises `HTTPException(500, f"Грешка при заявка за исторически
данни: {str(e)}")`; likewise the `ValueError` for a missing key. -/
def get_historical_weather {α : Type} (hasKey : Bool) (out : FetchOutcome α) :
    Except HTTPExc α :=
  if !hasKey then
    .error ⟨500, "Грешка при заявка за исторически данни: WEATHER_API_KEY не е предоставен"⟩
  else
    match out with
    | .raised m => .error ⟨500, "Грешка при заявка за исторически данни: " ++ m⟩
    | .response st body =>
      if st ≠ 200 then
        .error ⟨500, "Грешка при заявка за исторически данни: " ++
          httpExcStr ⟨st, "Неуспешно извличане на исторически данни"⟩⟩
      else .ok body

/-- `get_forecast_weather` (src/weather_data.py lines 34–52).  Same error
mapping as the historical fetcher; note that `days` is interpolated into the
URL but never validated here. -/
def get_forecast_weather {α : Type} (days : Int) (hasKey : Bool) (out : FetchOutcome α) :
    Except HTTPExc α :=
  if !hasKey then
    .error ⟨500, "Грешка при заявка за прогнозни данни: WEATHER_API_KEY не е предоставен"⟩
  else
    match out with
    | .raised m => .error ⟨500, "Грешка при заявка за прогнозни данни: " ++ m⟩
    | .response st body =>
      if st ≠ 200 then
        .error ⟨500, "Грешка при заявка за прогнозни данни: " ++
          httpExcStr ⟨st, "Неуспешно извличане на прогнозни данни"⟩⟩
      else .ok body

/-- `get_weather_data` (src/backup_app.py lines 40–54): forecast fetch of
the backup variant, same catch-and-rewrap shape. -/
def get_weather_data {α : Type} (out : FetchOutcome α) : Except HTTPExc α :=
  match out with
  | .raised m => .error ⟨500, "Грешка при заявка към WeatherAPI: " ++ m⟩
  | .response st body =>
    if st ≠ 200 then
      .error ⟨500, "Грешка при заявка към WeatherAPI: " ++
        httpExcStr ⟨st, "Неуспешно извличане на данни за времето"⟩⟩
    else .ok body

/-- The `/weather-trend` endpoint of src/backup_app.py (lines 142–171): the
`days` parameter is validated before the weather fetch; the endpoint's
`except HTTPException: raise` clause propagates both the 400 and any
`HTTPException` from the stages unchanged.  The Hugging Face summarization
stage is abstracted as its `Except` outcome. -/
def weather_trend {α : Type} (days : Int) (vendor : FetchOutcome α)
    (hf : Except HTTPExc String) : Except HTTPExc (α × String) :=
  if days < 1 ∨ days > 10 then
    .error ⟨400, "Броят дни трябва да бъде между 1 и 10"⟩
  else
    match get_weather_data vendor with
    | .error e => .error e
    | .ok wd =>
      match hf with
      | .error e => .error e
      | .ok trend => .ok (wd, trend)

/-! ### Basic helpers -/

theorem isEmpty_false_of_ne {α : Type} {l : List α} (h : l ≠ []) : l.isEmpty = false := by
  cases l with
  | nil => exact absurd rfl h
  | cons c cs => rfl

theorem strdata_append (s t : String) : (s ++ t).data = s.data ++ t.data := by
  cases s; cases t; rfl

theorem str_mk_ne_empty {l : List Char} (h : l ≠ []) : (⟨l⟩ : String) ≠ "" := by
  intro he
  exact h (congrArg String.data he)

theorem append_ne_empty_left {s : String} (t : String) (h : s.data ≠ []) : s ++ t ≠ "" := by
  intro he
  have hd := congrArg String.data he
  rw [strdata_append] at hd
  exact h (List.append_eq_nil.mp hd).1

/-! ### Membership survives marker stripping -/

theorem mem_dropWhile_of {P : Char → Bool} {c : Char} :
    ∀ {l : List Char}, c ∈ l → P c = false → c ∈ l.dropWhile P
  | [], hc, _ => absurd hc (List.not_mem_nil c)
  | x :: xs, hc, hP => by
    cases hPx : P x with
    | true =>
      rw [List.dropWhile_cons_of_pos hPx]
      rcases List.mem_cons.mp hc with rfl | h2
      · rw [hP] at hPx; exact absurd hPx (by simp)
      · exact mem_dropWhile_of h2 hP
    | false =>
      rw [List.dropWhile_cons_of_neg (by simp [hPx])]
      exact hc

theorem mem_pyStrip {c : Char} {l : List Char} (hc : c ∈ l) (hs : isPySpace c = false) :
    c ∈ pyStrip l := by
  unfold pyStrip
  exact List.mem_reverse.mpr
    (mem_dropWhile_of (List.mem_reverse.mpr (mem_dropWhile_of hc hs)) hs)

theorem mem_removePat2 (a b : Char) :
    ∀ (l : List Char) {c : Char}, c ∈ l → c ≠ a → c ≠ b → c ∈ removePat2 a b l
  | [], c, hc, _, _ => absurd hc (List.not_mem_nil c)
  | [d], c, hc, _, _ => by simpa [removePat2] using hc
  | d :: e :: cs, c, hc, ha, hb => by
    by_cases h : d = a ∧ e = b
    · rw [removePat2, if_pos h]
      rcases List.mem_cons.mp hc with rfl | h2
      · exact absurd h.1 ha
      rcases List.mem_cons.mp h2 with rfl | h3
      · exact absurd h.2 hb
      · exact mem_removePat2 a b cs h3 ha hb
    · rw [removePat2, if_neg h]
      rcases List.mem_cons.mp hc with rfl | h2
      · exact List.mem_cons_self _ _
      · exact List.mem_cons_of_mem _ (mem_removePat2 a b (e :: cs) h2 ha hb)

theorem mem_stripMarkers {c : Char} {p : List Char} (hc : c ∈ p)
    (h1 : c ≠ '1') (h2 : c ≠ '2') (h3 : c ≠ '3') (hd : c ≠ '.') (hp : c ≠ ')')
    (hs : isPySpace c = false) : c ∈ stripMarkers p := by
  unfold stripMarkers
  exact mem_pyStrip
    (mem_removePat2 _ _ _
      (mem_removePat2 _ _ _
        (mem_removePat2 _ _ _
          (mem_pyStrip
            (mem_removePat2 _ _ _
              (mem_removePat2 _ _ _
                (mem_removePat2 _ _ _ hc h1 hd) h2 hd) h3 hd) hs) h1 hp) h2 hp) h3 hp) hs

/-- First characters of the nine bucket keywords. -/
def kwHeads : List Char := ['в', 'н', 'т', 'у', 'с', 'х']

/-- The characters that marker stripping can remove. -/
def strippableChars : List Char :=
  [' ', '\t', '\n', '\r', '\x0b', '\x0c', '1', '2', '3', '.', ')']

theorem lower_fix_strippable : ∀ c ∈ strippableChars, pyLowerChar c = c := by decide

theorem kwHeads_not_strippable : ∀ k ∈ kwHeads, k ∉ strippableChars := by decide

theorem isPySpace_mem_strippable {c : Char} (h : isPySpace c = true) : c ∈ strippableChars := by
  simp only [isPySpace, Bool.or_eq_true, beq_iff_eq] at h
  rcases h with ((((rfl | rfl) | rfl) | rfl) | rfl) | rfl <;> decide

theorem head_not_strippable {c k : Char} (hk : k ∈ kwHeads) (h : pyLowerChar c = k) :
    c ∉ strippableChars := by
  intro hmem
  have hfix := lower_fix_strippable c hmem
  rw [hfix] at h
  exact kwHeads_not_strippable k hk (h ▸ hmem)

theorem survivor_facts {c k : Char} (hk : k ∈ kwHeads) (h : pyLowerChar c = k) :
    c ≠ '1' ∧ c ≠ '2' ∧ c ≠ '3' ∧ c ≠ '.' ∧ c ≠ ')' ∧ isPySpace c = false := by
  have hnb := head_not_strippable hk h
  refine ⟨?_, ?_, ?_, ?_, ?_, ?_⟩
  · intro he; exact hnb (by rw [he]; decide)
  · intro he; exact hnb (by rw [he]; decide)
  · intro he; exact hnb (by rw [he]; decide)
  · intro he; exact hnb (by rw [he]; decide)
  · intro he; exact hnb (by rw [he]; decide)
  · cases hsp : isPySpace c with
    | true => exact absurd (isPySpace_mem_strippable hsp) hnb
    | false => rfl

theorem containsSub_head_mem {n : Char} {ns : List Char} :
    ∀ {hay : List Char}, containsSub (n :: ns) hay = true → n ∈ hay := by
  intro hay
  induction hay with
  | nil => intro h; simp [containsSub, isPrefixL] at h
  | cons c cs ih =>
    intro h
    rw [containsSub, Bool.or_eq_true] at h
    rcases h with hpre | hrec
    · rw [isPrefixL, Bool.and_eq_true, beq_iff_eq] at hpre
      exact hpre.1 ▸ List.mem_cons_self _ _
    · exact List.mem_cons_of_mem _ (ih hrec)

theorem stripM_ne_nil_of_head {p : List Char} {k : Char} (hk : k ∈ kwHeads)
    (hmem : k ∈ lowered p) : stripMarkers p ≠ [] := by
  obtain ⟨c, hcp, hlow⟩ := List.mem_map.mp hmem
  obtain ⟨h1, h2, h3, hd, hp, hs⟩ := survivor_facts hk hlow
  exact List.ne_nil_of_mem (mem_stripMarkers hcp h1 h2 h3 hd hp hs)

theorem matchAnalysis_strip_ne {p : List Char} (h : matchAnalysis p = true) :
    stripMarkers p ≠ [] := by
  rw [matchAnalysis, Bool.or_eq_true, Bool.or_eq_true] at h
  rcases h with (h | h) | h
  · exact stripM_ne_nil_of_head (k := 'в') (by decide)
      (containsSub_head_mem (show containsSub ('в' :: "реме".data) (lowered p) = true from h))
  · exact stripM_ne_nil_of_head (k := 'н') (by decide)
      (containsSub_head_mem (show containsSub ('н' :: "ебе".data) (lowered p) = true from h))
  · exact stripM_ne_nil_of_head (k := 'т') (by decide)
      (containsSub_head_mem (show containsSub ('т' :: "емпература".data) (lowered p) = true from h))

theorem matchInfluence_strip_ne {p : List Char} (h : matchInfluence p = true) :
    stripMarkers p ≠ [] := by
  rw [matchInfluence, Bool.or_eq_true, Bool.or_eq_true] at h
  rcases h with (h | h) | h
  · exact stripM_ne_nil_of_head (k := 'в') (by decide)
      (containsSub_head_mem (show containsSub ('в' :: "лияние".data) (lowered p) = true from h))
  · exact stripM_ne_nil_of_head (k := 'у') (by decide)
      (containsSub_head_mem (show containsSub ('у' :: "сещане".data) (lowered p) = true from h))
  · exact stripM_ne_nil_of_head (k := 'н') (by decide)
      (containsSub_head_mem (show containsSub ('н' :: "астроение".data) (lowered p) = true from h))

theorem matchSunny_strip_ne {p : List Char} (h : matchSunny p = true) :
    stripMarkers p ≠ [] := by
  rw [matchSunny, Bool.or_eq_true] at h
  rcases h with h | h
  · exact stripM_ne_nil_of_head (k := 'с') (by decide)
      (containsSub_head_mem (show containsSub ('с' :: "лънчев".data) (lowered p) = true from h))
  · exact stripM_ne_nil_of_head (k := 'х') (by decide)
      (containsSub_head_mem (show containsSub ('х' :: "елиополис".data) (lowered p) = true from h))

/-! ### Scan-loop lemmas -/

theorem scanStep_a_stable {st : ScanState} {p : List Char} (h : st.a ≠ []) :
    (scanStep st p).a = st.a := by
  have he : st.a.isEmpty = false := isEmpty_false_of_ne h
  unfold scanStep
  rw [he]
  simp only [Bool.false_and, Bool.false_eq_true, if_false]
  split
  · rfl
  · split <;> rfl

theorem scanStep_i_stable {st : ScanState} {p : List Char} (h : st.i ≠ []) :
    (scanStep st p).i = st.i := by
  have he : st.i.isEmpty = false := isEmpty_false_of_ne h
  unfold scanStep
  split
  · rfl
  · rw [he]
    simp only [Bool.false_and, Bool.false_eq_true, if_false]
    split <;> rfl

theorem scanStep_s_stable {st : ScanState} {p : List Char} (h : st.s ≠ []) :
    (scanStep st p).s = st.s := by
  have he : st.s.isEmpty = false := isEmpty_false_of_ne h
  unfold scanStep
  split
  · rfl
  · split
    · rfl
    · rw [he]
      simp only [Bool.false_and, Bool.false_eq_true, if_false]

theorem foldl_a_stable : ∀ (ps : List (List Char)) (st : ScanState), st.a ≠ [] →
    (List.foldl scanStep st ps).a = st.a
  | [], _, _ => rfl
  | p :: ps, st, h => by
    rw [List.foldl_cons]
    have h2 : (scanStep st p).a = st.a := scanStep_a_stable h
    rw [foldl_a_stable ps _ (h2 ▸ h)]
    exact h2

theorem foldl_i_stable : ∀ (ps : List (List Char)) (st : ScanState), st.i ≠ [] →
    (List.foldl scanStep st ps).i = st.i
  | [], _, _ => rfl
  | p :: ps, st, h => by
    rw [List.foldl_cons]
    have h2 : (scanStep st p).i = st.i := scanStep_i_stable h
    rw [foldl_i_stable ps _ (h2 ▸ h)]
    exact h2

theorem foldl_s_stable : ∀ (ps : List (List Char)) (st : ScanState), st.s ≠ [] →
    (List.foldl scanStep st ps).s = st.s
  | [], _, _ => rfl
  | p :: ps, st, h => by
    rw [List.foldl_cons]
    have h2 : (scanStep st p).s = st.s := scanStep_s_stable h
    rw [foldl_s_stable ps _ (h2 ▸ h)]
    exact h2

theorem scanStep_a_of_no_match {st : ScanState} {p : List Char}
    (hm : matchAnalysis p = false) : (scanStep st p).a = st.a := by
  unfold scanStep
  rw [hm]
  simp only [Bool.and_false, Bool.false_eq_true, if_false]
  split
  · rfl
  · split <;> rfl

theorem scanStep_i_of_no_match {st : ScanState} {p : List Char}
    (hm : matchInfluence p = false) : (scanStep st p).i = st.i := by
  unfold scanStep
  split
  · rfl
  · rw [hm]
    simp only [Bool.and_false, Bool.false_eq_true, if_false]
    split <;> rfl

theorem scanStep_s_of_no_match {st : ScanState} {p : List Char}
    (hm : matchSunny p = false) : (scanStep st p).s = st.s := by
  unfold scanStep
  split
  · rfl
  · split
    · rfl
    · rw [hm]
      simp only [Bool.and_false, Bool.false_eq_true, if_false]

theorem foldl_a_empty : ∀ (ps : List (List Char)) (st : ScanState), st.a = [] →
    (List.foldl scanStep st ps).a = ((ps.find? matchAnalysis).map stripMarkers).getD []
  | [], st, h => by simp [h]
  | p :: ps, st, h => by
    rw [List.foldl_cons]
    cases hm : matchAnalysis p with
    | true =>
      have hstep : scanStep st p = { st with a := stripMarkers p } := by
        unfold scanStep
        rw [h, hm]
        rfl
      rw [hstep, foldl_a_stable ps _ (matchAnalysis_strip_ne hm),
        List.find?_cons_of_pos _ hm]
      rfl
    | false =>
      have ha : (scanStep st p).a = st.a := scanStep_a_of_no_match hm
      rw [List.find?_cons_of_neg _ (by simp [hm])]
      exact foldl_a_empty ps _ (ha.trans h)

theorem foldl_i_empty : ∀ (ps : List (List Char)) (st : ScanState),
    (∀ p ∈ ps, matchInfluence p = true → matchAnalysis p = false) → st.i = [] →
    (List.foldl scanStep st ps).i = ((ps.find? matchInfluence).map stripMarkers).getD []
  | [], st, _, h => by simp [h]
  | p :: ps, st, hdis, h => by
    rw [List.foldl_cons]
    cases hm : matchInfluence p with
    | true =>
      have hma : matchAnalysis p = false := hdis p (List.mem_cons_self _ _) hm
      have hstep : scanStep st p = { st with i := stripMarkers p } := by
        unfold scanStep
        rw [h, hm, hma]
        simp
      rw [hstep, foldl_i_stable ps _ (matchInfluence_strip_ne hm),
        List.find?_cons_of_pos _ hm]
      rfl
    | false =>
      have hi : (scanStep st p).i = st.i := scanStep_i_of_no_match hm
      rw [List.find?_cons_of_neg _ (by simp [hm])]
      exact foldl_i_empty ps _ (fun q hq => hdis q (List.mem_cons_of_mem _ hq)) (hi.trans h)

theorem foldl_s_empty : ∀ (ps : List (List Char)) (st : ScanState),
    (∀ p ∈ ps, matchSunny p = true → matchAnalysis p = false ∧ matchInfluence p = false) →
    st.s = [] →
    (List.foldl scanStep st ps).s = ((ps.find? matchSunny).map stripMarkers).getD []
  | [], st, _, h => by simp [h]
  | p :: ps, st, hdis, h => by
    rw [List.foldl_cons]
    cases hm : matchSunny p with
    | true =>
      obtain ⟨hma, hmi⟩ := hdis p (List.mem_cons_self _ _) hm
      have hstep : scanStep st p = { st with s := stripMarkers p } := by
        unfold scanStep
        rw [h, hm, hma, hmi]
        simp
      rw [hstep, foldl_s_stable ps _ (matchSunny_strip_ne hm),
        List.find?_cons_of_pos _ hm]
      rfl
    | false =>
      have hs : (scanStep st p).s = st.s := scanStep_s_of_no_match hm
      rw [List.find?_cons_of_neg _ (by simp [hm])]
      exact foldl_s_empty ps _ (fun q hq => hdis q (List.mem_cons_of_mem _ hq)) (hs.trans h)

theorem scan_noop : ∀ (ps : List (List Char)) (st : ScanState),
    (∀ p ∈ ps, matchAnalysis p = false ∧ matchInfluence p = false ∧ matchSunny p = false) →
    List.foldl scanStep st ps = st
  | [], _, _ => rfl
  | p :: ps, st, hm => by
    obtain ⟨ha, hi, hs⟩ := hm p (List.mem_cons_self _ _)
    have hstep : scanStep st p = st := by
      unfold scanStep
      rw [ha, hi, hs]
      simp
    rw [List.foldl_cons, hstep]
    exact scan_noop ps st (fun q hq => hm q (List.mem_cons_of_mem _ hq))

theorem paragraphs_ne_nil (text : String) : ∀ p ∈ paragraphs text, p ≠ [] := by
  intro p hp
  have h := (List.mem_filter.mp hp).2
  intro he
  rw [he] at h
  exact absurd h (by decide)

theorem paragraphs_getD_ne_nil (text : String) (n : Nat)
    (h : n < (paragraphs text).length) : (paragraphs text).getD n [] ≠ [] := by
  rw [List.getD_eq_getElem _ _ h]
  exact paragraphs_ne_nil text _ (List.getElem_mem h)

/-! ### Claim theorems -/

theorem cond_false_of_not_and {l : List Char} {b : Bool} (h : ¬(l = [] ∧ b = true)) :
    (l.isEmpty && b) = false := by
  by_cases hl : l = []
  · have hb : b = false := by
      cases hx : b
      · rfl
      · exact absurd ⟨hl, hx⟩ h
    rw [hb, Bool.and_false]
  · rw [isEmpty_false_of_ne hl, Bool.false_and]

/-- Claim C2 counterexample: with the paragraphs "време влияние" and
"влияние x", the first paragraph matching the influence keywords is
paragraph 0 (it contains "влияние", as `List.find?` confirms), but the
if/elif chain hands paragraph 0 to the higher-priority analysis bucket (it
also contains "време"), so the influence bucket ends up holding its second
matching paragraph — refuting "each bucket keeps only the first paragraph
that matches it". -/
theorem keyword_scan_priority_counterexample :
    matchInfluence "време влияние".data = true ∧
    (["време влияние".data, "влияние x".data].find? matchInfluence) =
      some "време влияние".data ∧
    (runScan ["време влияние".data, "влияние x".data]).i = "влияние x".data ∧
    (runScan ["време влияние".data, "влияние x".data]).i ≠
      stripMarkers "време влияние".data := by decide

/-- Claim C2 (amended): each paragraph is classified by a case-insensitive
keyword scan that checks the buckets in priority order — analysis on
време/небе/температура, then influence on влияние/усещане/настроение, then
sunny_day on слънчев/хелиополис — and assigns the paragraph (marker-stripped)
to the first still-empty bucket in that order whose keyword set it matches;
an already-filled bucket is left unchanged by every later paragraph.
Consequently the analysis bucket always keeps the first paragraph matching
its keywords, and when each paragraph matches at most one keyword set the
influence and sunny-day buckets keep their first matching paragraphs as
well.  The final conjunct exhibits case-insensitivity on an
uppercase/lowercase pair. -/
theorem keyword_scan_priority :
    (∀ (st : ScanState) (ps : List (List Char)),
      (st.a ≠ [] → (List.foldl scanStep st ps).a = st.a) ∧
      (st.i ≠ [] → (List.foldl scanStep st ps).i = st.i) ∧
      (st.s ≠ [] → (List.foldl scanStep st ps).s = st.s)) ∧
    (∀ (st : ScanState) (p : List Char),
      (st.a = [] → matchAnalysis p = true →
        scanStep st p = { st with a := stripMarkers p }) ∧
      (¬(st.a = [] ∧ matchAnalysis p = true) → st.i = [] → matchInfluence p = true →
        scanStep st p = { st with i := stripMarkers p }) ∧
      (¬(st.a = [] ∧ matchAnalysis p = true) → ¬(st.i = [] ∧ matchInfluence p = true) →
        st.s = [] → matchSunny p = true →
        scanStep st p = { st with s := stripMarkers p }) ∧
      (matchAnalysis p = false → matchInfluence p = false → matchSunny p = false →
        scanStep st p = st)) ∧
    (∀ ps : List (List Char),
      (runScan ps).a = ((ps.find? matchAnalysis).map stripMarkers).getD []) ∧
    (∀ ps : List (List Char),
      (∀ p ∈ ps,
        (matchAnalysis p = true → matchInfluence p = false ∧ matchSunny p = false) ∧
        (matchInfluence p = true → matchSunny p = false)) →
      (runScan ps).i = ((ps.find? matchInfluence).map stripMarkers).getD [] ∧
      (runScan ps).s = ((ps.find? matchSunny).map stripMarkers).getD []) ∧
    (matchAnalysis "ТЕМПЕРАТУРАТА РАСТЕ".data = true ∧
      matchAnalysis "температурата расте".data = true) := by
  refine ⟨fun st ps => ⟨foldl_a_stable ps st, foldl_i_stable ps st, foldl_s_stable ps st⟩,
    fun st p => ⟨?_, ?_, ?_, ?_⟩,
    fun ps => foldl_a_empty ps _ rfl,
    fun ps hdis => ?_, by decide, by decide⟩
  · intro ha hm
    unfold scanStep
    rw [ha, hm]
    simp
  · intro hna hi hm
    unfold scanStep
    rw [cond_false_of_not_and hna, hi, hm]
    simp
  · intro hna hni hs hm
    unfold scanStep
    rw [cond_false_of_not_and hna, cond_false_of_not_and hni, hs, hm]
    simp
  · intro h1 h2 h3
    unfold scanStep
    rw [h1, h2, h3]
    simp
  · have hia : ∀ p ∈ ps, matchInfluence p = true → matchAnalysis p = false := by
      intro p hp hmi
      cases hma : matchAnalysis p with
      | false => rfl
      | true =>
        have hfa := ((hdis p hp).1 hma).1
        rw [hmi] at hfa
        exact absurd hfa (by simp)
    have hsa : ∀ p ∈ ps, matchSunny p = true →
        matchAnalysis p = false ∧ matchInfluence p = false := by
      intro p hp hms
      constructor
      · cases hma : matchAnalysis p with
        | false => rfl
        | true =>
          have hfs := ((hdis p hp).1 hma).2
          rw [hms] at hfs
          exact absurd hfs (by simp)
      · cases hmi : matchInfluence p with
        | false => rfl
        | true =>
          have hfs := (hdis p hp).2 hmi
          rw [hms] at hfs
          exact absurd hfs (by simp)
    exact ⟨foldl_i_empty ps _ hia rfl, foldl_s_empty ps _ hsa rfl⟩

/-- Witness for the amended C2: the priority assignment on the
counterexample paragraphs (analysis filled, so the influence bucket takes
the multi-keyword paragraph's successor), the disjoint three-paragraph
case, and a filled-bucket stability instance. -/
theorem keyword_scan_priority_witness :
    scanStep ⟨"време влияние".data, [], []⟩ "влияние x".data =
      ⟨"време влияние".data, "влияние x".data, []⟩ ∧
    (runScan ["време влияние".data, "влияние x".data]).a = "време влияние".data ∧
    (runScan ["Температурата е висока".data, "Влиянието е добро".data,
      "Слънчев ден в Обзор".data]).i = "Влиянието е добро".data ∧
    (List.foldl scanStep ⟨"заето".data, [], []⟩ ["Времето е мъгливо".data]).a =
      "заето".data := by
  have h := keyword_scan_priority
  refine ⟨?_, ?_, ?_, ?_⟩
  · have h2 := (h.2.1 ⟨"време влияние".data, [], []⟩ "влияние x".data).2.1
      (by decide) rfl (by decide)
    rw [h2]
    decide
  · rw [h.2.2.1 ["време влияние".data, "влияние x".data]]
    decide
  · have hd := h.2.2.2.1 ["Температурата е висока".data, "Влиянието е добро".data,
      "Слънчев ден в Обзор".data] (by decide)
    rw [hd.1]
    decide
  · exact (h.1 ⟨"заето".data, [], []⟩ ["Времето е мъгливо".data]).1 (by decide)

theorem withDefaults_a_of_ne {st : ScanState} (h : st.a ≠ []) : (withDefaults st).a = st.a := by
  simp [withDefaults, isEmpty_false_of_ne h]

theorem withDefaults_i_of_ne {st : ScanState} (h : st.i ≠ []) : (withDefaults st).i = st.i := by
  simp [withDefaults, isEmpty_false_of_ne h]

theorem withDefaults_s_of_ne {st : ScanState} (h : st.s ≠ []) : (withDefaults st).s = st.s := by
  simp [withDefaults, isEmpty_false_of_ne h]

theorem positionalFill_a_empty {ps : List (List Char)} {st : ScanState}
    (h : st.a = []) (hne : ps ≠ []) : (positionalFill ps st).a = ps.getD 0 [] := by
  simp [positionalFill, h, isEmpty_false_of_ne hne]

theorem positionalFill_a_keep {ps : List (List Char)} {st : ScanState}
    (h : st.a ≠ []) : (positionalFill ps st).a = st.a := by
  simp [positionalFill, isEmpty_false_of_ne h]

theorem positionalFill_i_empty {ps : List (List Char)} {st : ScanState}
    (h : st.i = []) (hlen : 1 < ps.length) : (positionalFill ps st).i = ps.getD 1 [] := by
  simp [positionalFill, h, hlen]

theorem positionalFill_i_keep {ps : List (List Char)} {st : ScanState}
    (h : st.i ≠ []) : (positionalFill ps st).i = st.i := by
  simp [positionalFill, isEmpty_false_of_ne h]

theorem positionalFill_s_empty {ps : List (List Char)} {st : ScanState}
    (h : st.s = []) (hlen : 2 < ps.length) : (positionalFill ps st).s = ps.getD 2 [] := by
  simp [positionalFill, h, hlen]

theorem positionalFill_s_keep {ps : List (List Char)} {st : ScanState}
    (h : st.s ≠ []) : (positionalFill ps st).s = st.s := by
  simp [positionalFill, isEmpty_false_of_ne h]

/-- Claim C3: any bucket still empty after the keyword scan is filled by
index 0/1/2 into the original paragraph list when that index exists
(regardless of whether the indexed paragraph was keyword-claimed by another
bucket), and in particular, when no paragraph matches any bucket keyword,
paragraphs 0, 1, 2 go to analysis, influence and sunny_day respectively. -/
theorem positional_fallback_fill (text : String) (ps : List (List Char))
    (hps : ps = paragraphs text) :
    ((runScan ps).a = [] → ps ≠ [] → (parseGenerated text).a = ps.getD 0 []) ∧
    ((runScan ps).i = [] → 1 < ps.length → (parseGenerated text).i = ps.getD 1 []) ∧
    ((runScan ps).s = [] → 2 < ps.length → (parseGenerated text).s = ps.getD 2 []) ∧
    ((∀ p ∈ ps, matchAnalysis p = false ∧ matchInfluence p = false ∧ matchSunny p = false) →
      (ps ≠ [] → (parseGenerated text).a = ps.getD 0 []) ∧
      (1 < ps.length → (parseGenerated text).i = ps.getD 1 []) ∧
      (2 < ps.length → (parseGenerated text).s = ps.getD 2 [])) := by
  subst hps
  have key_a : (runScan (paragraphs text)).a = [] → paragraphs text ≠ [] →
      (parseGenerated text).a = (paragraphs text).getD 0 [] := by
    intro h hne
    have hlen : 0 < (paragraphs text).length := List.length_pos.mpr hne
    have h1 := positionalFill_a_empty h hne
    have h2 : (positionalFill (paragraphs text) (runScan (paragraphs text))).a ≠ [] :=
      h1 ▸ paragraphs_getD_ne_nil text 0 hlen
    rw [parseGenerated, withDefaults_a_of_ne h2, h1]
  have key_i : (runScan (paragraphs text)).i = [] → 1 < (paragraphs text).length →
      (parseGenerated text).i = (paragraphs text).getD 1 [] := by
    intro h hlen
    have h1 := positionalFill_i_empty h hlen
    have h2 : (positionalFill (paragraphs text) (runScan (paragraphs text))).i ≠ [] :=
      h1 ▸ paragraphs_getD_ne_nil text 1 hlen
    rw [parseGenerated, withDefaults_i_of_ne h2, h1]
  have key_s : (runScan (paragraphs text)).s = [] → 2 < (paragraphs text).length →
      (parseGenerated text).s = (paragraphs text).getD 2 [] := by
    intro h hlen
    have h1 := positionalFill_s_empty h hlen
    have h2 : (positionalFill (paragraphs text) (runScan (paragraphs text))).s ≠ [] :=
      h1 ▸ paragraphs_getD_ne_nil text 2 hlen
    rw [parseGenerated, withDefaults_s_of_ne h2, h1]
  refine ⟨key_a, key_i, key_s, fun hall => ?_⟩
  have hsc : runScan (paragraphs text) = ⟨[], [], []⟩ := by
    rw [runScan]
    exact scan_noop _ _ hall
  exact ⟨fun hne => key_a (by rw [hsc]) hne,
    fun hl => key_i (by rw [hsc]) hl,
    fun hl => key_s (by rw [hsc]) hl⟩

/-- Witness for C3 on a concrete three-paragraph response with no keyword
matches at all. -/
theorem positional_fallback_fill_witness :
    (parseGenerated "първи\n\nвтори\n\nтрети").a = "първи".data ∧
    (parseGenerated "първи\n\nвтори\n\nтрети").i = "втори".data ∧
    (parseGenerated "първи\n\nвтори\n\nтрети").s = "трети".data := by
  have h := (positional_fallback_fill "първи\n\nвтори\n\nтрети"
    (paragraphs "първи\n\nвтори\n\nтрети") rfl).2.2.2 (by decide)
  refine ⟨?_, ?_, ?_⟩
  · rw [h.1 (by decide)]; decide
  · rw [h.2.1 (by decide)]; decide
  · rw [h.2.2 (by decide)]; decide

/-- Claim C10: a bucket filled by the positional fallback receives the
paragraph exactly as produced by the blank-line split (whitespace-trimmed,
enumeration markers still present), while a bucket filled by keyword match
receives the marker-stripped paragraph — so the same paragraph can appear in
two different forms.  Here paragraph 1 keyword-fills the sunny bucket in
stripped form and simultaneously positionally fills the influence bucket in
raw form. -/
theorem fallback_form_difference (text : String) (p0 p1 : List Char)
    (hps : paragraphs text = [p0, p1])
    (h0 : matchAnalysis p0 = true)
    (h1i : matchInfluence p1 = false) (h1s : matchSunny p1 = true) :
    (parseGenerated text).a = stripMarkers p0 ∧
    (parseGenerated text).i = p1 ∧
    (parseGenerated text).s = stripMarkers p1 ∧
    (p1 ≠ stripMarkers p1 → (parseGenerated text).i ≠ (parseGenerated text).s) := by
  have hne0 := matchAnalysis_strip_ne h0
  have hne1 := matchSunny_strip_ne h1s
  have hp1mem : p1 ∈ paragraphs text := by rw [hps]; simp
  have hp1ne : p1 ≠ [] := paragraphs_ne_nil text p1 hp1mem
  have hstep0 : scanStep ⟨[], [], []⟩ p0 = ⟨stripMarkers p0, [], []⟩ := by
    unfold scanStep
    rw [h0]
    simp
  have hstep1 : scanStep ⟨stripMarkers p0, [], []⟩ p1 =
      ⟨stripMarkers p0, [], stripMarkers p1⟩ := by
    unfold scanStep
    rw [isEmpty_false_of_ne hne0, h1i, h1s]
    simp
  have hscan : runScan (paragraphs text) = ⟨stripMarkers p0, [], stripMarkers p1⟩ := by
    rw [hps]
    simp only [runScan, List.foldl]
    rw [hstep0, hstep1]
  have hlen : 1 < (paragraphs text).length := by simp [hps]
  have hgi : (paragraphs text).getD 1 [] = p1 := by rw [hps]; rfl
  have hpa : (positionalFill (paragraphs text)
      (⟨stripMarkers p0, [], stripMarkers p1⟩ : ScanState)).a = stripMarkers p0 :=
    positionalFill_a_keep hne0
  have hpa_ne : (positionalFill (paragraphs text)
      (⟨stripMarkers p0, [], stripMarkers p1⟩ : ScanState)).a ≠ [] := by
    rw [hpa]; exact hne0
  have hpi : (positionalFill (paragraphs text)
      (⟨stripMarkers p0, [], stripMarkers p1⟩ : ScanState)).i = p1 := by
    rw [positionalFill_i_empty rfl hlen, hgi]
  have hpi_ne : (positionalFill (paragraphs text)
      (⟨stripMarkers p0, [], stripMarkers p1⟩ : ScanState)).i ≠ [] := by
    rw [hpi]; exact hp1ne
  have hs1 : (positionalFill (paragraphs text)
      (⟨stripMarkers p0, [], stripMarkers p1⟩ : ScanState)).s = stripMarkers p1 :=
    positionalFill_s_keep hne1
  have hs1_ne : (positionalFill (paragraphs text)
      (⟨stripMarkers p0, [], stripMarkers p1⟩ : ScanState)).s ≠ [] := by
    rw [hs1]; exact hne1
  have hA : (parseGenerated text).a = stripMarkers p0 := by
    rw [parseGenerated, hscan, withDefaults_a_of_ne hpa_ne, hpa]
  have hI : (parseGenerated text).i = p1 := by
    rw [parseGenerated, hscan, withDefaults_i_of_ne hpi_ne, hpi]
  have hS : (parseGenerated text).s = stripMarkers p1 := by
    rw [parseGenerated, hscan, withDefaults_s_of_ne hs1_ne, hs1]
  refine ⟨hA, hI, hS, fun hd he => ?_⟩
  rw [hI, hS] at he
  exact hd he

/-- Witness for C10: the response has two paragraphs; paragraph 1 appears
marker-stripped in the sunny bucket and raw in the influence bucket. -/
theorem fallback_form_difference_witness :
    (parseGenerated "1. времето х\n\n2. слънчев").a = "времето х".data ∧
    (parseGenerated "1. времето х\n\n2. слънчев").i = "2. слънчев".data ∧
    (parseGenerated "1. времето х\n\n2. слънчев").s = "слънчев".data ∧
    (parseGenerated "1. времето х\n\n2. слънчев").i ≠
      (parseGenerated "1. времето х\n\n2. слънчев").s := by
  have h := fallback_form_difference "1. времето х\n\n2. слънчев"
    "1. времето х".data "2. слънчев".data (by decide) (by decide) (by decide) (by decide)
  refine ⟨?_, ?_, ?_, h.2.2.2 (by decide)⟩
  · rw [h.1]; decide
  · exact h.2.1
  · rw [h.2.2.1]; decide

/-- Claim C4 counterexample: the paragraph "времето е 21.5 градуса" carries
no leading enumeration marker, yet the stored analysis field differs from
the paragraph — the interior "1." of "21.5" is removed, refuting the claim
that only the leading position is stripped and the rest left unchanged. -/
theorem enum_marker_nonleading_counterexample :
    matchAnalysis "времето е 21.5 градуса".data = true ∧
    paragraphs "времето е 21.5 градуса" = ["времето е 21.5 градуса".data] ∧
    (parseGenerated "времето е 21.5 градуса").a = "времето е 25 градуса".data ∧
    "времето е 25 градуса".data ≠ "времето е 21.5 градуса".data := by decide

/-- Claim C4 (amended): before a paragraph is stored into the bucket it
fills by keyword match, the analyzer removes every occurrence of the
markers "1.", "2.", "3." (then trims whitespace) and then every occurrence
of "1)", "2)", "3)" (then trims whitespace) — anywhere in the paragraph,
not only at the leading position. -/
theorem enum_marker_global_strip (text : String) (p : List Char)
    (hps : paragraphs text = [p]) (hm : matchAnalysis p = true) :
    (parseGenerated text).a = stripMarkers p := by
  have hne := matchAnalysis_strip_ne hm
  have hstep : scanStep ⟨[], [], []⟩ p = ⟨stripMarkers p, [], []⟩ := by
    unfold scanStep
    rw [hm]
    simp
  have hscan : runScan (paragraphs text) = ⟨stripMarkers p, [], []⟩ := by
    rw [hps]
    simp only [runScan, List.foldl]
    rw [hstep]
  have hpa : (positionalFill (paragraphs text)
      (⟨stripMarkers p, [], []⟩ : ScanState)).a = stripMarkers p :=
    positionalFill_a_keep hne
  have hpa_ne : (positionalFill (paragraphs text)
      (⟨stripMarkers p, [], []⟩ : ScanState)).a ≠ [] := by
    rw [hpa]; exact hne
  rw [parseGenerated, hscan, withDefaults_a_of_ne hpa_ne, hpa]

/-- Witness for the amended C4, evaluated on the counterexample input. -/
theorem enum_marker_global_strip_witness :
    (parseGenerated "времето е 21.5 градуса").a =
      stripMarkers "времето е 21.5 градуса".data ∧
    stripMarkers "времето е 21.5 градуса".data = "времето е 25 градуса".data :=
  ⟨enum_marker_global_strip _ _ (by decide) (by decide), by decide⟩

theorem withDefaults_fields_ne (st : ScanState) :
    (withDefaults st).a ≠ [] ∧ (withDefaults st).i ≠ [] ∧ (withDefaults st).s ≠ [] := by
  refine ⟨?_, ?_, ?_⟩ <;> unfold withDefaults <;> dsimp only
  · split
    · decide
    · next h =>
      intro he
      rw [he] at h
      exact h rfl
  · split
    · decide
    · next h =>
      intro he
      rw [he] at h
      exact h rfl
  · split
    · decide
    · next h =>
      intro he
      rw [he] at h
      exact h rfl

theorem append3_ne_empty (s t u : String) (h : s.data ≠ []) : s ++ t ++ u ≠ "" := by
  apply append_ne_empty_left
  rw [strdata_append]
  intro he
  exact h (List.append_eq_nil.mp he).1

theorem analyze_non200 (fd : ForecastData) (status : Nat) (body : AnthropicBody)
    (h : status ≠ 200) :
    analyze_weather_trend true fd (.response status body) = httpErrorResult status := by
  unfold analyze_weather_trend
  simp [h]

/-- Claim C1: for every input and every LLM outcome — missing key, any HTTP
status, any response body, any exception during dispatch or parsing (the
`LLMOutcome.raised` constructor) — `analyze_weather_trend` is a total
function (no exception escapes) and the three narrative fields of its result
are non-empty strings. -/
theorem analyze_trend_fields_nonempty (hasKey : Bool) (fd : ForecastData) (out : LLMOutcome) :
    (analyze_weather_trend hasKey fd out).analiz ≠ "" ∧
    (analyze_weather_trend hasKey fd out).vliyanie ≠ "" ∧
    (analyze_weather_trend hasKey fd out).slanchev_den ≠ "" := by
  cases hasKey with
  | false =>
    refine ⟨append3_ne_empty _ _ _ (by decide), ?_, ?_⟩
    · show ("[!] Поради липса на AI анализ, препоръчваме да следите метеорологичните условия от стандартната прогноза." : String) ≠ ""
      decide
    · show ("[!] AI оценката за \x27слънчев ден\x27 не е налична поради липсващ API ключ." : String) ≠ ""
      decide
  | true =>
    cases out with
    | raised m =>
      refine ⟨append3_ne_empty _ _ _ (by decide), ?_, ?_⟩
      · show ("[!] Поради технически проблем не можем да предоставим детайлен анализ. Моля, проверете други източници." : String) ≠ ""
        decide
      · show ("[!] Временно недостъпна информация поради системна грешка." : String) ≠ ""
        decide
    | response status body =>
      by_cases hst : status = 200
      · subst hst
        obtain ⟨content⟩ := body
        cases content with
        | nil =>
          refine ⟨append3_ne_empty _ _ _ (by decide), ?_, ?_⟩
          · show ("[!] Поради технически проблем не можем да предоставим детайлен анализ. Моля, проверете други източници." : String) ≠ ""
            decide
          · show ("[!] Временно недостъпна информация поради системна грешка." : String) ≠ ""
            decide
        | cons blk rest =>
          have hp := withDefaults_fields_ne
            (positionalFill (paragraphs (blk.text.getD ""))
              (runScan (paragraphs (blk.text.getD ""))))
          exact ⟨str_mk_ne_empty hp.1, str_mk_ne_empty hp.2.1, str_mk_ne_empty hp.2.2⟩
      · rw [analyze_non200 fd status body hst]
        refine ⟨append3_ne_empty _ _ _ (by decide), ?_, ?_⟩
        · show ("[!] Поради техническа поддръжка на AI системите, моля проверете прогнозата от други източници. Междувременно можете да се насладите на морския бриз." : String) ≠ ""
          decide
        · show ("[!] Временно недостъпна информация поради технически проблем с AI анализа." : String) ≠ ""
          decide

/-- Claim C5: with the LLM API key absent, `analyze_weather_trend` returns
the degraded record — status "error", error detail naming the missing
ANTHROPIC_API_KEY, analysis embedding the current forecast temperature —
independently of the LLM outcome (no network call is consulted), and the
defensively extracted temperature is "N/A" whenever the "current" section or
its "temp_c" value is missing. -/
theorem missing_api_key_degraded (fd : ForecastData) (o o2 : LLMOutcome) :
    analyze_weather_trend false fd o =
      { analiz := "[!] AI анализът временно недостъпен (липсва API ключ). Базовите данни показват температура от " ++ currentTempStr fd ++ "°C в Обзор."
        vliyanie := "[!] Поради липса на AI анализ, препоръчваме да следите метеорологичните условия от стандартната прогноза."
        slanchev_den := "[!] AI оценката за \x27слънчев ден\x27 не е налична поради липсващ API ключ."
        status := some "error"
        error_details := some "Липсва ANTHROPIC_API_KEY" } ∧
    analyze_weather_trend false fd o = analyze_weather_trend false fd o2 ∧
    currentTempStr ⟨none⟩ = "N/A" ∧
    currentTempStr ⟨some ⟨none⟩⟩ = "N/A" :=
  ⟨rfl, rfl, rfl, rfl⟩

/-- Claim C9: a 200 response whose first content block carries an empty
"text" string yields the success-shaped result (no status / error-details
keys) holding the three fixed default sentences, while an empty content
list is routed to the degraded system-error path. -/
theorem empty_text_vs_empty_content (fd : ForecastData) :
    analyze_weather_trend true fd (.response 200 ⟨[⟨some ""⟩]⟩) =
      { analiz := defaultAnalysis, vliyanie := defaultInfluence,
        slanchev_den := defaultSunny, status := none, error_details := none } ∧
    analyze_weather_trend true fd (.response 200 ⟨[]⟩) =
      sysErrorResult "Празен отговор от AI модела" ∧
    (analyze_weather_trend true fd (.response 200 ⟨[]⟩)).status = some "error" :=
  ⟨rfl, rfl, rfl⟩

/-- Claim C6: the `days` query parameter of the backup endpoint is validated
before the weather fetch: every value outside [1,10] (in particular 0 and
11) produces the 400 client error regardless of vendor outcome, while 1 and
10 pass the check and the result is determined by the vendor call. -/
theorem days_range_check (α : Type) (days : Int) (vendor : FetchOutcome α)
    (hf : Except HTTPExc String) :
    ((days < 1 ∨ days > 10) →
      weather_trend days vendor hf =
        .error ⟨400, "Броят дни трябва да бъде между 1 и 10"⟩) ∧
    (∀ (wd : α) (tr : String),
      weather_trend 1 (.response 200 wd) (.ok tr) = .ok (wd, tr)) ∧
    (∀ (wd : α) (tr : String),
      weather_trend 10 (.response 200 wd) (.ok tr) = .ok (wd, tr)) ∧
    (∀ m : String, weather_trend 1 (FetchOutcome.raised m : FetchOutcome α) hf =
      .error ⟨500, "Грешка при заявка към WeatherAPI: " ++ m⟩) := by
  refine ⟨fun h => ?_, fun wd tr => rfl, fun wd tr => rfl, fun m => rfl⟩
  unfold weather_trend
  rw [if_pos h]

/-- Witness for C6 at the boundary values 0, 11, 1 and 10. -/
theorem days_range_check_witness :
    weather_trend 0 (FetchOutcome.response 200 ()) (Except.ok "тренд") =
      Except.error ⟨400, "Броят дни трябва да бъде между 1 и 10"⟩ ∧
    weather_trend 11 (FetchOutcome.response 200 ()) (Except.ok "тренд") =
      Except.error ⟨400, "Броят дни трябва да бъде между 1 и 10"⟩ ∧
    weather_trend 1 (FetchOutcome.response 200 ()) (Except.ok "тренд") =
      Except.ok ((), "тренд") ∧
    weather_trend 10 (FetchOutcome.response 200 ()) (Except.ok "тренд") =
      Except.ok ((), "тренд") :=
  ⟨(days_range_check Unit 0 (.response 200 ()) (.ok "тренд")).1 (Or.inl (by decide)),
    (days_range_check Unit 11 (.response 200 ()) (.ok "тренд")).1 (Or.inr (by decide)),
    (days_range_check Unit 1 (.response 200 ()) (.ok "тренд")).2.1 () "тренд",
    (days_range_check Unit 10 (.response 200 ()) (.ok "тренд")).2.2.1 () "тренд"⟩

/-- Claim C7 evaluated at a concrete failing input: on a vendor 404 both
fetchers raise `HTTPException` with status_code 500 — the vendor-status
`HTTPException` raised inside the `try` block is caught by the functions'
own blanket `except Exception` and re-wrapped, so the exception reaching
the caller carries 500, with the vendor code surviving only as text inside
the detail string. -/
theorem upstream_error_rewrapped_500 :
    get_historical_weather true (FetchOutcome.response 404 ()) =
      Except.error ⟨500, "Грешка при заявка за исторически данни: 404: Неуспешно извличане на исторически данни"⟩ ∧
    get_forecast_weather 2 true (FetchOutcome.response 404 ()) =
      Except.error ⟨500, "Грешка при заявка за прогнозни данни: 404: Неуспешно извличане на прогнозни данни"⟩ := by
  constructor <;> rfl

end Obzor
